import Mathlib

/-!
Verification development for the SchoolOrganizationDB backend user resolver
(src/backend/src/resolvers/user.ts).

The resolver operations are embedded as pure functions over an explicit state:
the user table, the redis key/value store holding password-reset tokens (with
absolute expiry instants), the express-session userId, and the list of emails
handed to sendEmail.  Asynchronous database/redis calls become ordinary state
passing; thrown middleware errors become `Except.error`.

Parts of the repository that the resolver imports but whose files are not part
of the source tree here (the User entity with its column constraints, the
validateRegister / validateChangeInfo helpers, the isAuth middleware, the
FORGET_PASSWORD_PREFIX constant) are modelled from the specification; each such
definition carries a doc comment starting with `Modelled from the spec:`.
-/

/-- Row of the User table: id, username, email, password (hash), imageUrl
(timestamps are irrelevant to every operation modelled here). -/
structure User where
  id : Nat
  username : String
  email : String
  password : String
  imageUrl : String
  deriving Repr, DecidableEq

/-- Deterministic executable stand-in for argon2.hash: an abstract injective
hashing function whose output is never equal to its input (real argon2 outputs
carry a version/salt header, modelled by the tag prepended here). -/
def argon2hash (p : String) : String := "$argon2$" ++ p

/-- Executable stand-in for argon2.verify: checks a stored hash against a
candidate password. -/
def argon2verify (hashed p : String) : Bool := hashed == argon2hash p

/-- The (field, message) error object returned to the UI. -/
structure FieldError where
  field : String
  message : String
  deriving Repr, DecidableEq

/-- UserResponse: either a list of field errors or a user (or neither). -/
structure UserResponse where
  errors : Option (List FieldError)
  user : Option User
  deriving Repr, DecidableEq

/-- Input object of the changeInfo mutation; every field is nullable. -/
structure ChangeInfoInput where
  username : Option String
  email : Option String
  password : Option String
  confirmPassword : Option String
  deriving Repr, DecidableEq

/-- JavaScript truthiness of an optional string: null/undefined and the empty
string are falsy. -/
def truthy : Option String → Bool
  | none => false
  | some s => s != ""

/-- One redis entry: key, stored user id, absolute expiry instant.  The source
stores `user.id` as the value and reads it back with parseInt; that string
round-trip is elided and the value kept as the id itself. -/
structure RedisEntry where
  key : String
  value : Nat
  expiresAt : Nat
  deriving Repr, DecidableEq

/-- redis GET at instant `now`: the live value under `key`, if unexpired. -/
def redisGet (r : List RedisEntry) (key : String) (now : Nat) : Option Nat :=
  match r.find? (fun e => e.key == key) with
  | none => none
  | some e => if now < e.expiresAt then some e.value else none

/-- redis SET key value EX seconds: replaces any entry under `key`. -/
def redisSet (r : List RedisEntry) (key : String) (value : Nat) (now exSeconds : Nat) :
    List RedisEntry :=
  ⟨key, value, now + exSeconds⟩ :: r.filter (fun e => e.key != key)

/-- redis DEL key. -/
def redisDel (r : List RedisEntry) (key : String) : List RedisEntry :=
  r.filter (fun e => e.key != key)

/-- Whole-backend state: user table, auto-increment counter, redis store,
session userId, and the emails handed to sendEmail. -/
structure St where
  users : List User
  nextId : Nat
  redis : List RedisEntry
  sessionUserId : Option Nat
  sentEmails : List (String × String)
  deriving Repr, DecidableEq

/-- The empty initial state. -/
def initSt : St := ⟨[], 1, [], none, []⟩

/-- Modelled from the spec: the FORGET_PASSWORD_PREFIX constant lives in
src/backend/src/constants, which is not part of the source tree here.  Its
exact value is irrelevant to every claim; only its use as a fixed key namespace
matters. -/
def FORGET_PASSWORD_PFX : String := "forget-password:"

/-- Expiry window passed to redis SET in forgotPassword (the literal
1000 * 60 * 60 * 24 * 3 from the source). -/
def EX_SECONDS : Nat := 1000 * 60 * 60 * 24 * 3

/-- A UserResponse holding a single field error. -/
def errResp (f m : String) : UserResponse := { errors := some [⟨f, m⟩], user := none }

/-- JavaScript `s.includes("@")`: the string contains an at-sign character. -/
def hasAtSign (s : String) : Bool := s.data.any (fun c => c == '@')

/-- The findOne at the top of login: by email when usernameOrEmail contains an
at-sign, by username otherwise. -/
def lookupLogin (st : St) (usernameOrEmail : String) : Option User :=
  if hasAtSign usernameOrEmail then
    st.users.find? (fun u => u.email == usernameOrEmail)
  else
    st.users.find? (fun u => u.username == usernameOrEmail)

/-- The login mutation. -/
def login (st : St) (usernameOrEmail password : String) : UserResponse × St :=
  let user := lookupLogin st usernameOrEmail
  if usernameOrEmail == "" then
    (errResp "usernameOrEmail" "No username or email supplied", st)
  else if password == "" then
    (errResp "password" "No password supplied", st)
  else
    match user with
    | none => (errResp "usernameOrEmail" "That School does not exist", st)
    | some u =>
      if argon2verify u.password password then
        ({ errors := none, user := some u }, { st with sessionUserId := some u.id })
      else
        (errResp "password" "Invalid password", st)

/-- Modelled from the spec: validateRegister (src/backend/src/utils/validateRegister
is imported by the resolver but is not part of the source tree here).  The spec
states only that validation yields field-level (field, message) errors and names
no concrete rule, so the model accepts every input. -/
def validateRegister (_username _email _password _confirmPassword : String) :
    Option (List FieldError) := none

/-- The register mutation.  The duplicate check models the database unique
constraints on username and email (Modelled from the spec: the User entity file
declaring them is not part of the source tree here; the spec states that
username and email are unique across users).  A violated constraint raises
error code 23505, which the source catches and maps to the field error below. -/
def register (st : St) (username email password confirmPassword : String) :
    UserResponse × St :=
  match validateRegister username email password confirmPassword with
  | some errs => ({ errors := some errs, user := none }, st)
  | none =>
    let hashedPassword := argon2hash password
    if st.users.any (fun v => v.username == username || v.email == email) then
      (errResp "username" "School Already Exists", st)
    else
      let user : User := ⟨st.nextId, username, email, hashedPassword, ""⟩
      ({ errors := none, user := some user },
       { st with users := st.users ++ [user], nextId := st.nextId + 1,
                 sessionUserId := some user.id })

/-- The changePassword mutation, at instant `now`. -/
def changePassword (st : St) (now : Nat) (token newPassword confirmNewPassword : String) :
    UserResponse × St :=
  if newPassword.length ≤ 2 then
    (errResp "newPassword" "Length Must be greater than 2", st)
  else if newPassword != confirmNewPassword then
    (errResp "confirmNewPassword" "Passwords do not match", st)
  else
    let redisKey := FORGET_PASSWORD_PFX ++ token
    match redisGet st.redis redisKey now with
    | none => (errResp "token" "Invalid Token", st)
    | some userIdNumber =>
      match st.users.find? (fun u => u.id == userIdNumber) with
      | none => (errResp "token" "User no longer exists", st)
      | some user =>
        let users := st.users.map (fun u =>
          if u.id == userIdNumber then { u with password := argon2hash newPassword } else u)
        ({ errors := none, user := some user },
         { st with users := users, redis := redisDel st.redis redisKey,
                   sessionUserId := some user.id })

/-- The HTML body sendEmail receives (whitespace of the template literal
normalised). -/
def resetHtml (username token : String) : String :=
  "<div><div><h2>Hello " ++ username ++
  "</h2><p>Below is a link to reset your password</p>" ++
  "<a href=\"https://peeldb.me/change-password/" ++ token ++
  "\">Reset Password</a></div></div>"

/-- The forgotPassword mutation; `freshToken` is the uuid v4() drawn for this
call and `now` the current instant. -/
def forgotPassword (st : St) (now : Nat) (freshToken : String) (email : String) :
    Bool × St :=
  match st.users.find? (fun u => u.email == email) with
  | none => (true, st)
  | some user =>
    (true,
     { st with
        redis := redisSet st.redis (FORGET_PASSWORD_PFX ++ freshToken) user.id now EX_SECONDS,
        sentEmails := st.sentEmails ++ [(email, resetHtml user.username freshToken)] })

/-- Modelled from the spec: validateChangeInfo (src/backend/src/utils/valdiateChangeInfo
is imported by the resolver but is not part of the source tree here).  As with
validateRegister, the spec names no concrete rule, so the model accepts every
input. -/
def validateChangeInfo (_input : ChangeInfoInput) : Option (List FieldError) := none

/-- Value the changeInfo update writes for username/email: the input field when
truthy, otherwise the current stored value. -/
def resolvedField (inp : Option String) (old : String) : String :=
  if truthy inp then inp.getD "" else old

/-- Value the changeInfo update writes for the password column: the hash of the
input password when truthy, otherwise the current stored hash. -/
def resolvedPassword (inp : Option String) (old : String) : String :=
  if truthy inp then argon2hash (inp.getD "") else old

/-- The changeInfo mutation.  The isAuth middleware (Modelled from the spec:
its file is not part of the source tree here; per the spec it rejects requests
with no session) becomes the `Except.error` branch.  The duplicate check models
the same database unique constraints as in `register`. -/
def changeInfo (st : St) (input : ChangeInfoInput) : Except String (UserResponse × St) :=
  match st.sessionUserId with
  | none => .error "Not Authenticated"
  | some userId =>
    match validateChangeInfo input with
    | some errs => .ok ({ errors := some errs, user := none }, st)
    | none =>
      match st.users.find? (fun u => u.id == userId) with
      | none =>
        -- the update touches no row (no user has the session id); refetch finds none
        .ok ({ errors := none, user := none }, st)
      | some user =>
        let newUsername := resolvedField input.username user.username
        let newEmail := resolvedField input.email user.email
        let newPassword := resolvedPassword input.password user.password
        if st.users.any (fun v => v.id != userId && (v.username == newUsername || v.email == newEmail)) then
          .ok (errResp "username" "School Already Exists", st)
        else
          let users := st.users.map (fun u =>
            if u.id == userId then
              { u with username := newUsername, email := newEmail, password := newPassword }
            else u)
          let st2 : St := { st with users := users }
          .ok ({ errors := none, user := st2.users.find? (fun u => u.id == userId) }, st2)

/-- The email field resolver: a user sees their own email, everyone else (any
other session, or no session) gets the empty string. -/
def emailResolver (st : St) (user : User) : String :=
  if st.sessionUserId == some user.id then user.email else ""

/-- The me query. -/
def me (st : St) : Option User :=
  match st.sessionUserId with
  | none => none
  | some userId => st.users.find? (fun u => u.id == userId)

/-- The deleteUser mutation (isAuth-guarded); destroys the session. -/
def deleteUser (st : St) : Except String (Bool × St) :=
  match st.sessionUserId with
  | none => .error "Not Authenticated"
  | some userId =>
    .ok (true, { st with users := st.users.filter (fun u => u.id != userId),
                         sessionUserId := none })

/-- The uploadImg mutation: updates the session users imageUrl and refetches. -/
def uploadImg (st : St) (imageUrl : String) : UserResponse × St :=
  match st.sessionUserId with
  | none => ({ errors := none, user := none }, st)
  | some userId =>
    let users := st.users.map (fun u =>
      if u.id == userId then { u with imageUrl := imageUrl } else u)
    let st2 : St := { st with users := users }
    ({ errors := none, user := st2.users.find? (fun u => u.id == userId) }, st2)

/-- The logout mutation: destroys the session. -/
def logout (st : St) : Bool × St := (true, { st with sessionUserId := none })

/-- The countUsers query. -/
def countUsers (st : St) : Nat := st.users.length

/-- States reachable from the empty database by the resolver operations. -/
inductive Reachable : St → Prop where
  | init : Reachable initSt
  | register (st : St) (u e p c : String) :
      Reachable st → Reachable (register st u e p c).2
  | login (st : St) (ue p : String) :
      Reachable st → Reachable (login st ue p).2
  | changePassword (st : St) (now : Nat) (t np cnp : String) :
      Reachable st → Reachable (changePassword st now t np cnp).2
  | forgotPassword (st : St) (now : Nat) (tok e : String) :
      Reachable st → Reachable (forgotPassword st now tok e).2
  | changeInfo (st : St) (input : ChangeInfoInput) (r : UserResponse) (st2 : St) :
      Reachable st → changeInfo st input = .ok (r, st2) → Reachable st2
  | deleteUser (st : St) (b : Bool) (st2 : St) :
      Reachable st → deleteUser st = .ok (b, st2) → Reachable st2
  | uploadImg (st : St) (url : String) :
      Reachable st → Reachable (uploadImg st url).2
  | logout (st : St) :
      Reachable st → Reachable (logout st).2

/-- No two distinct rows share a username or share an email. -/
def NoDupCreds (l : List User) : Prop :=
  l.Pairwise (fun a b => a.username ≠ b.username ∧ a.email ≠ b.email)

/-- Two user rows with distinct id, username and email. -/
def distinctUser (a b : User) : Prop :=
  a.id ≠ b.id ∧ a.username ≠ b.username ∧ a.email ≠ b.email

/-- Strengthened induction invariant: pairwise distinct ids, usernames and
emails; every id below the auto-increment counter; every stored password an
argon2 hash. -/
def StInv (st : St) : Prop :=
  st.users.Pairwise distinctUser
  ∧ (∀ u ∈ st.users, u.id < st.nextId)
  ∧ (∀ u ∈ st.users, ∃ p, u.password = argon2hash p)

lemma distinctUser_symm : Symmetric distinctUser := by
  intro a b h
  exact ⟨h.1.symm, h.2.1.symm, h.2.2.symm⟩

lemma argon2hash_ne (p : String) : argon2hash p ≠ p := by
  intro h
  have hlen := congrArg String.length h
  rw [argon2hash, String.length_append] at hlen
  have h8 : ("$argon2$" : String).length = 8 := rfl
  omega

lemma argon2verify_eq (hashed p : String) : argon2verify hashed p = true ↔ hashed = argon2hash p := by
  simp [argon2verify]

lemma find?_key_of_mem (key : User → String) (l : List User) (u : User)
    (hmem : u ∈ l) (h : l.Pairwise (fun a b => key a ≠ key b)) :
    l.find? (fun v => key v == key u) = some u := by
  induction l with
  | nil => cases hmem
  | cons a t ih =>
    rcases List.mem_cons.mp hmem with rfl | hm
    · exact List.find?_cons_of_pos _ (by simp)
    · have hne : key a ≠ key u := List.rel_of_pairwise_cons h hm
      rw [List.find?_cons_of_neg _ (by simp [hne])]
      exact ih hm h.of_cons

lemma find?_id_map (l : List User) (f : User → User) (hid : ∀ u, (f u).id = u.id) (uid : Nat) :
    (l.map f).find? (fun v => v.id == uid) = (l.find? (fun v => v.id == uid)).map f := by
  induction l with
  | nil => rfl
  | cons a t ih =>
    by_cases h : a.id = uid
    · rw [List.map_cons, List.find?_cons_of_pos _ (by simp [hid, h]),
        List.find?_cons_of_pos _ (by simp [h])]
      rfl
    · rw [List.map_cons, List.find?_cons_of_neg _ (by simp [hid, h]),
        List.find?_cons_of_neg _ (by simp [h]), ih]

lemma stinv_congr (st st2 : St) (hu : st2.users = st.users) (hn : st2.nextId = st.nextId)
    (h : StInv st) : StInv st2 := by
  unfold StInv at h ⊢
  rw [hu, hn]
  exact h

/-- Invariant preservation for the one-row conditional updates performed by
changePassword, changeInfo and uploadImg. -/
lemma stinv_update (st : St) (uid : Nat) (g : User → User)
    (hinv : StInv st)
    (hid : ∀ u, (g u).id = u.id)
    (hpw : ∀ u ∈ st.users, (∃ p, u.password = argon2hash p) → ∃ p, (g u).password = argon2hash p)
    (hfree : ∀ v ∈ st.users, ∀ w ∈ st.users, v.id ≠ uid → w.id = uid →
        v.username ≠ (g w).username ∧ v.email ≠ (g w).email) :
    StInv { st with users := st.users.map (fun u => if u.id == uid then g u else u) } := by
  obtain ⟨hp, hids, hh⟩ := hinv
  refine ⟨?_, ?_, ?_⟩
  · rw [List.pairwise_map]
    refine hp.imp_of_mem ?_
    intro a b ha hb hab
    obtain ⟨h1, h2, h3⟩ := hab
    by_cases hA : a.id = uid <;> by_cases hB : b.id = uid
    · exact absurd (hA.trans hB.symm) h1
    · have hf := hfree b hb a ha (fun hc => hB hc) hA
      simp only [hA, hB, beq_self_eq_true, if_true, beq_iff_eq, if_neg hB]
      exact ⟨by rw [hid]; rw [hA]; exact fun hc => hB hc.symm, hf.1.symm, hf.2.symm⟩
    · have hf := hfree a ha b hb hA hB
      simp only [hA, hB, beq_self_eq_true, if_true, beq_iff_eq, if_neg hA]
      exact ⟨by rw [hid]; rw [hB]; exact hA, hf.1, hf.2⟩
    · simp only [beq_iff_eq, if_neg hA, if_neg hB]
      exact ⟨h1, h2, h3⟩
  · intro u hu
    rw [List.mem_map] at hu
    obtain ⟨v, hv, rfl⟩ := hu
    by_cases h : v.id = uid
    · simpa [h, hid] using hids v hv
    · simpa [h] using hids v hv
  · intro u hu
    rw [List.mem_map] at hu
    obtain ⟨v, hv, rfl⟩ := hu
    by_cases h : v.id = uid
    · simp only [beq_iff_eq, if_pos h]
      exact hpw v hv (hh v hv)
    · simp only [beq_iff_eq, if_neg h]
      exact hh v hv

lemma stinv_register (st : St) (u e p c : String) (h : StInv st) :
    StInv (register st u e p c).2 := by
  obtain ⟨hp, hids, hh⟩ := h
  simp only [register, validateRegister]
  cases hb : st.users.any (fun v => v.username == u || v.email == e) with
  | true =>
    exact ⟨hp, hids, hh⟩
  | false =>
    have hfree : ∀ v ∈ st.users, v.username ≠ u ∧ v.email ≠ e := by
      intro v hv
      have hnv := List.any_eq_false.mp hb v hv
      simp only [Bool.or_eq_true, beq_iff_eq, not_or] at hnv
      exact hnv
    show StInv ⟨st.users ++ [⟨st.nextId, u, e, argon2hash p, ""⟩], st.nextId + 1,
      st.redis, some st.nextId, st.sentEmails⟩
    refine ⟨?_, ?_, ?_⟩
    · rw [List.pairwise_append]
      refine ⟨hp, List.pairwise_singleton _ _, ?_⟩
      intro a ha b hb2
      rw [List.mem_singleton] at hb2
      subst hb2
      exact ⟨Nat.ne_of_lt (hids a ha), (hfree a ha).1, (hfree a ha).2⟩
    · intro x hx
      rcases List.mem_append.mp hx with hx | hx
      · exact Nat.lt_succ_of_lt (hids x hx)
      · rw [List.mem_singleton] at hx
        subst hx
        exact Nat.lt_succ_self _
    · intro x hx
      rcases List.mem_append.mp hx with hx | hx
      · exact hh x hx
      · rw [List.mem_singleton] at hx
        subst hx
        exact ⟨p, rfl⟩

lemma stinv_login (st : St) (ue pw : String) (h : StInv st) : StInv (login st ue pw).2 := by
  unfold login
  dsimp only
  split
  · exact h
  split
  · exact h
  split
  · exact h
  split
  · exact stinv_congr st _ rfl rfl h
  · exact h

lemma stinv_changePassword (st : St) (now : Nat) (t np cnp : String) (h : StInv st) :
    StInv (changePassword st now t np cnp).2 := by
  unfold changePassword
  split
  · exact h
  split
  · exact h
  dsimp only
  split
  · exact h
  rename_i userIdNumber hget
  split
  · exact h
  rename_i user hfind
  refine stinv_congr _ _ rfl rfl
    (stinv_update st userIdNumber (fun u => { u with password := argon2hash np }) h
      (fun u => rfl) (fun u hu _ => ⟨np, rfl⟩) ?_)
  intro v hv w hw hvid hwid
  have hne : v ≠ w := fun hc => hvid (by rw [hc]; exact hwid)
  have hd := List.Pairwise.forall distinctUser_symm h.1 hv hw hne
  exact ⟨hd.2.1, hd.2.2⟩

lemma stinv_forgotPassword (st : St) (now : Nat) (tok e : String) (h : StInv st) :
    StInv (forgotPassword st now tok e).2 := by
  unfold forgotPassword
  split
  · exact h
  · exact stinv_congr st _ rfl rfl h

lemma stinv_changeInfo (st : St) (input : ChangeInfoInput) (r : UserResponse) (st2 : St)
    (h : StInv st) (heq : changeInfo st input = .ok (r, st2)) : StInv st2 := by
  unfold changeInfo at heq
  split at heq
  · cases heq
  rename_i userId hsess
  simp only [validateChangeInfo] at heq
  split at heq
  · simp only [Except.ok.injEq, Prod.mk.injEq] at heq
    obtain ⟨-, rfl⟩ := heq
    exact h
  rename_i user hfind
  split at heq
  · simp only [Except.ok.injEq, Prod.mk.injEq] at heq
    obtain ⟨-, rfl⟩ := heq
    exact h
  rename_i hany
  simp only [Except.ok.injEq, Prod.mk.injEq] at heq
  obtain ⟨-, rfl⟩ := heq
  have huser : user ∈ st.users := List.mem_of_find?_eq_some hfind
  refine stinv_congr _ _ rfl rfl
    (stinv_update st userId
      (fun u => { u with username := resolvedField input.username user.username,
                         email := resolvedField input.email user.email,
                         password := resolvedPassword input.password user.password }) h
      (fun u => rfl) ?_ ?_)
  · intro u hu _
    unfold resolvedPassword
    split
    · exact ⟨_, rfl⟩
    · exact h.2.2 user huser
  · intro v hv w hw hvid hwid
    rw [Bool.not_eq_true] at hany
    have hnv := List.any_eq_false.mp hany v hv
    simp only [Bool.and_eq_true, Bool.or_eq_true, beq_iff_eq, bne_iff_ne, not_and, not_or] at hnv
    exact hnv hvid

lemma stinv_deleteUser (st : St) (b : Bool) (st2 : St) (h : StInv st)
    (heq : deleteUser st = .ok (b, st2)) : StInv st2 := by
  unfold deleteUser at heq
  split at heq
  · cases heq
  simp only [Except.ok.injEq, Prod.mk.injEq] at heq
  obtain ⟨-, rfl⟩ := heq
  refine ⟨h.1.sublist (List.filter_sublist _), ?_, ?_⟩
  · intro u hu
    exact h.2.1 u (List.mem_of_mem_filter hu)
  · intro u hu
    exact h.2.2 u (List.mem_of_mem_filter hu)

lemma stinv_uploadImg (st : St) (url : String) (h : StInv st) : StInv (uploadImg st url).2 := by
  unfold uploadImg
  split
  · exact h
  rename_i userId hsess
  refine stinv_congr _ _ rfl rfl
    (stinv_update st userId (fun u => { u with imageUrl := url }) h
      (fun u => rfl) (fun u hu hp => hp) ?_)
  intro v hv w hw hvid hwid
  have hne : v ≠ w := fun hc => hvid (by rw [hc]; exact hwid)
  have hd := List.Pairwise.forall distinctUser_symm h.1 hv hw hne
  exact ⟨hd.2.1, hd.2.2⟩

lemma stinv_logout (st : St) (h : StInv st) : StInv (logout st).2 :=
  stinv_congr st _ rfl rfl h

lemma reachable_inv (st : St) (h : Reachable st) : StInv st := by
  induction h with
  | init => exact ⟨List.Pairwise.nil, by simp [initSt], by simp [initSt]⟩
  | register st u e p c _ ih => exact stinv_register st u e p c ih
  | login st ue p _ ih => exact stinv_login st ue p ih
  | changePassword st now t np cnp _ ih => exact stinv_changePassword st now t np cnp ih
  | forgotPassword st now tok e _ ih => exact stinv_forgotPassword st now tok e ih
  | changeInfo st input r st2 _ heq ih => exact stinv_changeInfo st input r st2 ih heq
  | deleteUser st b st2 _ heq ih => exact stinv_deleteUser st b st2 ih heq
  | uploadImg st url _ ih => exact stinv_uploadImg st url ih
  | logout st _ ih => exact stinv_logout st ih

lemma find?_filter_key_ne (r : List RedisEntry) (k : String) :
    (r.filter (fun e => e.key != k)).find? (fun e => e.key == k) = none := by
  induction r with
  | nil => rfl
  | cons a rest ih =>
    rw [List.filter_cons]
    by_cases h : a.key = k
    · rw [if_neg (by simp [h])]
      exact ih
    · rw [if_pos (by simp [h]), List.find?_cons_of_neg _ (by simp [h])]
      exact ih

lemma redisGet_set (r : List RedisEntry) (k : String) (v now ex t : Nat) :
    redisGet (redisSet r k v now ex) k t = if t < now + ex then some v else none := by
  unfold redisGet redisSet
  rw [List.find?_cons_of_pos _ (by simp)]

lemma redisGet_del (r : List RedisEntry) (k : String) (t : Nat) :
    redisGet (redisDel r k) k t = none := by
  unfold redisGet redisDel
  rw [find?_filter_key_ne]

lemma changePassword_success_redis (st : St) (now : Nat) (t np cnp : String) :
    ((changePassword st now t np cnp).1).errors = none →
    (changePassword st now t np cnp).2.redis = redisDel st.redis (FORGET_PASSWORD_PFX ++ t) := by
  unfold changePassword
  split
  · intro h
    simp [errResp] at h
  split
  · intro h
    simp [errResp] at h
  dsimp only
  split
  · intro h
    simp [errResp] at h
  split
  · intro h
    simp [errResp] at h
  intro _
  rfl

lemma login_success (st : St) (u : User) (ue pw : String)
    (hlookup : lookupLogin st ue = some u)
    (hue : ue ≠ "") (hpw : pw ≠ "")
    (hv : argon2verify u.password pw = true) :
    login st ue pw
      = ({ errors := none, user := some u }, { st with sessionUserId := some u.id }) := by
  unfold login
  dsimp only
  rw [if_neg (by simp [hue]), if_neg (by simp [hpw]), hlookup]
  dsimp only
  rw [if_pos hv]

lemma lookupLogin_username (st : St) (u : User) (hmem : u ∈ st.users)
    (hnod : NoDupCreds st.users) (hat : hasAtSign u.username = false) :
    lookupLogin st u.username = some u := by
  unfold lookupLogin
  rw [if_neg (by simp [hat])]
  exact find?_key_of_mem (fun v => v.username) st.users u hmem
    (List.Pairwise.imp (fun h => h.1) hnod)

lemma lookupLogin_email (st : St) (u : User) (hmem : u ∈ st.users)
    (hnod : NoDupCreds st.users) (hat : hasAtSign u.email = true) :
    lookupLogin st u.email = some u := by
  unfold lookupLogin
  rw [if_pos hat]
  exact find?_key_of_mem (fun v => v.email) st.users u hmem
    (List.Pairwise.imp (fun h => h.2) hnod)

/-- User row used by concrete witnesses. -/
def uA : User := ⟨1, "alice", "alice@mail.com", argon2hash "pw", ""⟩

/-- Second user row used by concrete witnesses. -/
def uB : User := ⟨2, "bob", "bob@mail.com", argon2hash "pw2", ""⟩

/-- One-user state used by concrete witnesses and counterexamples. -/
def stC1 : St := ⟨[uA], 2, [], none, []⟩

/-- C9: the email field resolver returns the email only when the session
userId equals the user id; any other requester, including an unauthenticated
session, gets the empty string. -/
theorem claim_C9 (st : St) (u : User) :
    (st.sessionUserId = some u.id → emailResolver st u = u.email)
    ∧ (st.sessionUserId ≠ some u.id → emailResolver st u = "") := by
  constructor
  · intro h
    simp [emailResolver, h]
  · intro h
    simp [emailResolver, h]

theorem claim_C9_witness :
    emailResolver ⟨[uA], 2, [], some 1, []⟩ uA = uA.email
    ∧ emailResolver ⟨[uA], 2, [], none, []⟩ uA = "" :=
  ⟨(claim_C9 ⟨[uA], 2, [], some 1, []⟩ uA).1 rfl,
   (claim_C9 ⟨[uA], 2, [], none, []⟩ uA).2 (by decide)⟩

/-- C8: forgotPassword returns true whether or not the email matches a user;
with no matching user the state is unchanged (no token stored, no email sent);
with a matching user the token entry is stored and one reset email recorded. -/
theorem claim_C8 (st : St) (now : Nat) (tok e : String) :
    (forgotPassword st now tok e).1 = true
    ∧ (st.users.find? (fun u => u.email == e) = none → (forgotPassword st now tok e).2 = st)
    ∧ (∀ u, st.users.find? (fun u2 => u2.email == e) = some u →
        (forgotPassword st now tok e).2.redis
          = redisSet st.redis (FORGET_PASSWORD_PFX ++ tok) u.id now EX_SECONDS
        ∧ (forgotPassword st now tok e).2.sentEmails
          = st.sentEmails ++ [(e, resetHtml u.username tok)]) := by
  refine ⟨?_, ?_, ?_⟩
  · unfold forgotPassword
    split <;> rfl
  · intro h
    simp [forgotPassword, h]
  · intro u h
    simp [forgotPassword, h]

theorem claim_C8_witness :
    (forgotPassword stC1 0 "tok" "nobody@mail.com").1 = true
    ∧ (forgotPassword stC1 0 "tok" "nobody@mail.com").2 = stC1
    ∧ (forgotPassword stC1 0 "tok" "alice@mail.com").2.redis
        = redisSet [] (FORGET_PASSWORD_PFX ++ "tok") 1 0 EX_SECONDS :=
  ⟨(claim_C8 stC1 0 "tok" "nobody@mail.com").1,
   (claim_C8 stC1 0 "tok" "nobody@mail.com").2.1 (by decide),
   ((claim_C8 stC1 0 "tok" "alice@mail.com").2.2 uA (by decide)).1⟩

/-- C7: changePassword with a too-short newPassword, or with newPassword
different from confirmNewPassword, returns a nonempty list of field errors and
leaves both the user table and the redis token store unchanged. -/
theorem claim_C7 (st : St) (now : Nat) (tok np cnp : String)
    (h : np.length ≤ 2 ∨ np ≠ cnp) :
    (∃ errs : List FieldError, errs ≠ []
        ∧ (changePassword st now tok np cnp).1 = { errors := some errs, user := none })
    ∧ (changePassword st now tok np cnp).2.users = st.users
    ∧ (changePassword st now tok np cnp).2.redis = st.redis := by
  unfold changePassword
  by_cases h1 : np.length ≤ 2
  · rw [if_pos h1]
    exact ⟨⟨[⟨"newPassword", "Length Must be greater than 2"⟩], by simp, rfl⟩, rfl, rfl⟩
  · have h2 : np ≠ cnp := h.resolve_left h1
    rw [if_neg h1, if_pos (bne_iff_ne.mpr h2)]
    exact ⟨⟨[⟨"confirmNewPassword", "Passwords do not match"⟩], by simp, rfl⟩, rfl, rfl⟩

theorem claim_C7_witness :
    (∃ errs : List FieldError, errs ≠ []
        ∧ (changePassword stC1 0 "tok" "ab" "ab").1 = { errors := some errs, user := none })
    ∧ (changePassword stC1 0 "tok" "ab" "ab").2.users = stC1.users
    ∧ (changePassword stC1 0 "tok" "ab" "ab").2.redis = stC1.redis :=
  claim_C7 stC1 0 "tok" "ab" "ab" (Or.inl (by decide))

/-- C1 counterexample: the two login authentication failures are not reported
as one field-agnostic error shape — an unknown usernameOrEmail is reported on
the usernameOrEmail field and a failed password verification on the password
field, so the response reveals which input was wrong. -/
theorem claim_C1_counterexample :
    (login stC1 "bob" "pw").1 = errResp "usernameOrEmail" "That School does not exist"
    ∧ (login stC1 "alice" "wrong").1 = errResp "password" "Invalid password"
    ∧ (login stC1 "bob" "pw").1 ≠ (login stC1 "alice" "wrong").1 := by decide

/-- C1 (amended): every login authentication failure is reported as a
UserResponse carrying a single FieldError, but the error names the failing
field: a usernameOrEmail matching no user yields a usernameOrEmail-field
error, and a failed password verification yields a password-field error. -/
theorem claim_C1 (st : St) (ue pw : String) (u : User)
    (hue : ue ≠ "") (hpw : pw ≠ "") :
    (lookupLogin st ue = none →
        (login st ue pw).1 = errResp "usernameOrEmail" "That School does not exist")
    ∧ (lookupLogin st ue = some u → argon2verify u.password pw = false →
        (login st ue pw).1 = errResp "password" "Invalid password") := by
  constructor
  · intro hl
    unfold login
    dsimp only
    rw [if_neg (by simp [hue]), if_neg (by simp [hpw]), hl]
  · intro hl hv
    unfold login
    dsimp only
    rw [if_neg (by simp [hue]), if_neg (by simp [hpw]), hl]
    dsimp only
    rw [if_neg (by simp [hv])]

theorem claim_C1_witness :
    (login stC1 "carol" "pw").1 = errResp "usernameOrEmail" "That School does not exist"
    ∧ (login stC1 "alice" "bad").1 = errResp "password" "Invalid password" :=
  ⟨(claim_C1 stC1 "carol" "pw" uA (by decide) (by decide)).1 (by decide),
   (claim_C1 stC1 "alice" "bad" uA (by decide) (by decide)).2 (by decide) (by decide)⟩

/-- C4: in every reachable state, every stored password is the argon2 hash of
some supplied password and never equals that supplied password itself. -/
theorem claim_C4 (st : St) (h : Reachable st) :
    ∀ u ∈ st.users, ∃ p, u.password = argon2hash p ∧ u.password ≠ p := by
  intro u hu
  obtain ⟨p, hp⟩ := (reachable_inv st h).2.2 u hu
  refine ⟨p, hp, ?_⟩
  rw [hp]
  exact argon2hash_ne p

theorem claim_C4_witness :
    ∃ p, (User.mk 1 "alice" "a@mail.com" (argon2hash "pw") "").password = argon2hash p
      ∧ (User.mk 1 "alice" "a@mail.com" (argon2hash "pw") "").password ≠ p :=
  claim_C4 (register initSt "alice" "a@mail.com" "pw" "pw").2
    (Reachable.register initSt "alice" "a@mail.com" "pw" "pw" Reachable.init)
    ⟨1, "alice", "a@mail.com", argon2hash "pw", ""⟩ (by decide)

/-- C6: in every state reachable by the operations, no two distinct user rows
share a username or share an email. -/
theorem claim_C6 (st : St) (h : Reachable st) : NoDupCreds st.users :=
  List.Pairwise.imp (fun hd => ⟨hd.2.1, hd.2.2⟩) (reachable_inv st h).1

theorem claim_C6_witness :
    NoDupCreds (register (register initSt "alice" "a@mail.com" "pw" "pw").2
      "bob" "b@mail.com" "pw2" "pw2").2.users :=
  claim_C6 _ (Reachable.register _ "bob" "b@mail.com" "pw2" "pw2"
    (Reachable.register initSt "alice" "a@mail.com" "pw" "pw" Reachable.init))

/-- C3: a register call whose username or email collides with an existing row
returns the mapped already-exists field error and leaves the state unchanged
(no user created, no session set); a changeInfo call whose resolved update
collides with a different existing row gets the same mapping. -/
theorem claim_C3 :
    (∀ (st : St) (username email password confirm : String),
      (∃ v ∈ st.users, v.username = username ∨ v.email = email) →
      register st username email password confirm
        = (errResp "username" "School Already Exists", st))
    ∧ (∀ (st : St) (input : ChangeInfoInput) (userId : Nat) (user : User),
      st.sessionUserId = some userId →
      st.users.find? (fun u => u.id == userId) = some user →
      (∃ v ∈ st.users, v.id ≠ userId
        ∧ (v.username = resolvedField input.username user.username
           ∨ v.email = resolvedField input.email user.email)) →
      changeInfo st input = .ok (errResp "username" "School Already Exists", st)) := by
  constructor
  · rintro st username email password confirm ⟨v, hv, hor⟩
    have hany : (st.users.any (fun v2 => v2.username == username || v2.email == email)) = true := by
      refine List.any_eq_true.mpr ⟨v, hv, ?_⟩
      rcases hor with h | h <;> simp [h]
    simp only [register, validateRegister, hany]
    rfl
  · rintro st input userId user hsess hfind ⟨v, hv, hvid, hor⟩
    have hany : (st.users.any (fun v2 => v2.id != userId
        && (v2.username == resolvedField input.username user.username
            || v2.email == resolvedField input.email user.email))) = true := by
      refine List.any_eq_true.mpr ⟨v, hv, ?_⟩
      rcases hor with h | h <;> simp [h, hvid]
    simp only [changeInfo, hsess, validateChangeInfo, hfind, hany]
    rfl

/-- changeInfo input renaming the session user to the already-taken username
alice; used by the C3 witness. -/
def inputC3 : ChangeInfoInput := ⟨some "alice", none, none, none⟩

/-- Two-user state whose session belongs to uB; used by the C3 witness. -/
def stAB : St := ⟨[uA, uB], 3, [], some 2, []⟩

theorem claim_C3_witness :
    register stC1 "alice" "other@mail.com" "pww" "pww"
      = (errResp "username" "School Already Exists", stC1)
    ∧ changeInfo stAB inputC3
      = .ok (errResp "username" "School Already Exists", stAB) :=
  ⟨claim_C3.1 stC1 "alice" "other@mail.com" "pww" "pww" ⟨uA, by decide, by decide⟩,
   claim_C3.2 stAB inputC3 2 uB rfl (by decide) ⟨uA, by decide, by decide⟩⟩

/-- C2: forgotPassword stores the reset token under FORGET_PASSWORD_PFX ++ token
mapped to the matching users id, readable exactly until the expiry instant; and
after a changePassword call that succeeds the mapping is deleted, so a second
changePassword with the same token returns the invalid-token field error. -/
theorem claim_C2 :
    (∀ (st : St) (now : Nat) (tok e : String) (u : User),
      st.users.find? (fun v => v.email == e) = some u →
      ∀ t, redisGet (forgotPassword st now tok e).2.redis (FORGET_PASSWORD_PFX ++ tok) t
        = if t < now + EX_SECONDS then some u.id else none)
    ∧ (∀ (st : St) (now now2 : Nat) (tok np np2 : String),
      ((changePassword st now tok np np).1).errors = none →
      2 < np2.length →
      ((changePassword (changePassword st now tok np np).2 now2 tok np2 np2).1)
        = errResp "token" "Invalid Token") := by
  constructor
  · intro st now tok e u hfind t
    simp only [forgotPassword, hfind]
    exact redisGet_set st.redis (FORGET_PASSWORD_PFX ++ tok) u.id now EX_SECONDS t
  · intro st now now2 tok np np2 hok hlen
    have hredis := changePassword_success_redis st now tok np np hok
    revert hredis
    generalize (changePassword st now tok np np).2 = st2
    intro hredis
    unfold changePassword
    rw [if_neg (by omega), if_neg (by simp)]
    dsimp only
    rw [hredis, redisGet_del]

/-- State holding a live reset token for uA; used by the C2 witness. -/
def stT : St := ⟨[uA], 2, [⟨FORGET_PASSWORD_PFX ++ "tk", 1, 50⟩], none, []⟩

theorem claim_C2_witness :
    (redisGet (forgotPassword stC1 7 "tk" "alice@mail.com").2.redis
        (FORGET_PASSWORD_PFX ++ "tk") 7
      = if 7 < 7 + EX_SECONDS then some uA.id else none)
    ∧ ((changePassword (changePassword stT 0 "tk" "abc" "abc").2 0 "tk" "xyz" "xyz").1)
        = errResp "token" "Invalid Token" :=
  ⟨claim_C2.1 stC1 7 "tk" "alice@mail.com" uA (by decide) 7,
   claim_C2.2 stT 0 0 "tk" "abc" "xyz" (by decide) (by decide)⟩

/-- C5 counterexample: a user registered with an at-sign in the username (the
spec-modelled validator accepts every input) cannot log in with that username
and the correct password — login treats a string containing an at-sign as an
email, finds no user, and errors instead of establishing a session. -/
theorem claim_C5_counterexample :
    ((register initSt "bob@school" "bob@mail.com" "secret" "secret").1).errors = none
    ∧ ((login (register initSt "bob@school" "bob@mail.com" "secret" "secret").2
        "bob@school" "secret").1)
      = errResp "usernameOrEmail" "That School does not exist" := by decide

/-- C5 (amended): for every user in a duplicate-free store, login with the
correct password succeeds and sets the session userId, provided the username
is nonempty and contains no at-sign when logging in by username, and the
email contains an at-sign when logging in by email. -/
theorem claim_C5 (st : St) (u : User) (pw : String)
    (hmem : u ∈ st.users) (hnod : NoDupCreds st.users)
    (hpw : pw ≠ "") (hv : argon2verify u.password pw = true) :
    (u.username ≠ "" → hasAtSign u.username = false →
      login st u.username pw
        = ({ errors := none, user := some u }, { st with sessionUserId := some u.id }))
    ∧ (hasAtSign u.email = true →
      login st u.email pw
        = ({ errors := none, user := some u }, { st with sessionUserId := some u.id })) := by
  constructor
  · intro hne hat
    exact login_success st u u.username pw (lookupLogin_username st u hmem hnod hat) hne hpw hv
  · intro hat
    have hne : u.email ≠ "" := by
      intro hc
      rw [hc] at hat
      exact absurd hat (by decide)
    exact login_success st u u.email pw (lookupLogin_email st u hmem hnod hat) hne hpw hv

theorem claim_C5_witness :
    login stC1 "alice" "pw"
      = ({ errors := none, user := some uA }, { stC1 with sessionUserId := some uA.id })
    ∧ login stC1 "alice@mail.com" "pw"
      = ({ errors := none, user := some uA }, { stC1 with sessionUserId := some uA.id }) :=
  ⟨(claim_C5 stC1 uA "pw" (by decide) (by unfold NoDupCreds; decide) (by decide)
      (by decide)).1 (by decide) (by decide),
   (claim_C5 stC1 uA "pw" (by decide) (by unfold NoDupCreds; decide) (by decide)
      (by decide)).2 (by decide)⟩

/-- C10: changeInfo leaves every absent-or-empty input field of the logged-in
user unchanged: after a non-throwing call, the stored username, email and
password each equal their previous value whenever the corresponding input
field was null or empty. -/
theorem claim_C10 (st : St) (input : ChangeInfoInput) (userId : Nat) (user : User)
    (r : UserResponse) (st2 : St)
    (hsess : st.sessionUserId = some userId)
    (hfind : st.users.find? (fun u => u.id == userId) = some user)
    (heq : changeInfo st input = .ok (r, st2)) :
    ∃ user2, st2.users.find? (fun u => u.id == userId) = some user2
      ∧ (truthy input.username = false → user2.username = user.username)
      ∧ (truthy input.email = false → user2.email = user.email)
      ∧ (truthy input.password = false → user2.password = user.password) := by
  unfold changeInfo at heq
  simp only [hsess, validateChangeInfo, hfind] at heq
  split at heq
  · simp only [Except.ok.injEq, Prod.mk.injEq] at heq
    obtain ⟨-, rfl⟩ := heq
    exact ⟨user, hfind, fun _ => rfl, fun _ => rfl, fun _ => rfl⟩
  · simp only [Except.ok.injEq, Prod.mk.injEq] at heq
    obtain ⟨-, rfl⟩ := heq
    have hpu := List.find?_some hfind
    refine ⟨{ user with username := resolvedField input.username user.username,
                        email := resolvedField input.email user.email,
                        password := resolvedPassword input.password user.password },
            ?_, ?_, ?_, ?_⟩
    · dsimp only
      rw [find?_id_map st.users _ (fun u => by split <;> rfl) userId, hfind,
        Option.map_some', if_pos hpu]
    · intro h
      simp [resolvedField, h]
    · intro h
      simp [resolvedField, h]
    · intro h
      simp [resolvedPassword, h]

/-- changeInfo input updating only the email; used by the C10 witness. -/
def inputC10 : ChangeInfoInput := ⟨none, some "bob2@mail.com", none, none⟩

/-- The uB row after the C10 witness update. -/
def uB2 : User := ⟨2, "bob", "bob2@mail.com", argon2hash "pw2", ""⟩

/-- The stAB state after the C10 witness update. -/
def stAB2 : St := ⟨[uA, uB2], 3, [], some 2, []⟩

theorem claim_C10_witness :
    ∃ user2, stAB2.users.find? (fun u => u.id == 2) = some user2
      ∧ (truthy inputC10.username = false → user2.username = uB.username)
      ∧ (truthy inputC10.email = false → user2.email = uB.email)
      ∧ (truthy inputC10.password = false → user2.password = uB.password) :=
  claim_C10 stAB inputC10 2 uB (UserResponse.mk none (some uB2)) stAB2 rfl (by decide) rfl
